import Mathlib

/-!
Verification of the orchestration core of the `ai-summary` server
(`server.js`) against its natural-language specification.

The JavaScript source is embedded shallowly: stateful handlers become
explicit state-passing functions over a task store modelled as
`String → Option Task`, the file system becomes `String → Option (List Nat)`,
remote calls become function parameters, and machine behaviour such as the
truthiness of JavaScript values or an un-awaited `Promise` is modelled by
explicit data types.  Chinese string literals are kept verbatim from the
source.
-/

namespace AiSummary

/-- The Task document persisted in `storage/{id}.json` (see the
`CrawlerTask` interface: `type`, `status` are strings, `content`,
`summary`, `audioFile` are optional strings, `isRecording` an optional
boolean). -/
structure Task where
  id : String
  name : String
  type : String
  url : String
  status : String
  content : Option String
  summary : Option String
  audioFile : Option String
  isRecording : Option Bool
deriving DecidableEq, Repr

/-- The per-task document store (`storage/` directory): task id to stored
document, `none` when no `{id}.json` file exists. -/
def TaskStore := String → Option Task

/-- `saveTask`: writes the document for `task.id` (file
`storage/{task.id}.json`). -/
def saveTask (store : TaskStore) (task : Task) : TaskStore :=
  fun q => if q = task.id then some task else store q

/-- The `catch` handler of `app.post('/api/process-webpage/:id')`
(server.js lines 893-907): re-reads the task; when it exists, sets
`status = 'failed'`, `summary = '处理失败: ' + error.message` and saves.
`isRecording` is not touched by this handler. -/
def processWebpageCatch (store : TaskStore) (id errMsg : String) : TaskStore :=
  match store id with
  | none => store
  | some task =>
      saveTask store { task with status := "failed",
                                 summary := some ("处理失败: " ++ errMsg) }

/-- The `catch` handler of `app.post('/api/stop-recording/:id')`
(server.js lines 1030-1048): sets `status = 'failed'`,
`isRecording = false`, `summary = '处理失败: ' + error.message` and saves. -/
def stopRecordingCatch (store : TaskStore) (id errMsg : String) : TaskStore :=
  match store id with
  | none => store
  | some task =>
      saveTask store { task with status := "failed",
                                 isRecording := some false,
                                 summary := some ("处理失败: " ++ errMsg) }

/-- The `catch` handler of `app.post('/api/process-audio-summary')`
(server.js lines 2032-2049): sets `status = 'failed'`,
`summary = '摘要生成失败: ' + error.message` and saves.  `isRecording` is
not touched by this handler. -/
def processAudioSummaryCatch (store : TaskStore) (id errMsg : String) : TaskStore :=
  match store id with
  | none => store
  | some task =>
      saveTask store { task with status := "failed",
                                 summary := some ("摘要生成失败: " ++ errMsg) }

end AiSummary

namespace AiSummary

/-- A concrete live task in status `processing` with an open capture
session, used to exercise the failure handlers. -/
def liveTask : Task :=
  { id := "t1", name := "live demo", type := "live", url := ""
    status := "processing", content := none, summary := none
    audioFile := none, isRecording := some true }

/-- A one-task store holding `liveTask`. -/
def liveStore : TaskStore :=
  fun q => if q = "t1" then some liveTask else none

/-! ## Object Store Client singleton (`createOSSClient` / `resetOSSClient`) -/

/-- The two module-level variables `ossClientInstance` (a client handle or
`null`) and `ossClientInitialized` (server.js lines 22-23).  A client
handle is abstracted as a `Nat` identifier. -/
structure OSSClientState where
  instanceVal : Option Nat
  initialized : Bool
deriving DecidableEq, Repr

/-- `createOSSClient()` (server.js lines 26-94).  The whole configuration
resolution (environment variables, then `config/ossConfig.json`) together
with the `new OSS(...)` construction is abstracted as the input `resolve`:
`some c` when a complete configuration yields a client, `none` when the
configuration is incomplete or construction throws (both of which the
source catches, returning `null`).  The result is
`(returned value, new module state, whether configuration was resolved on
this call)`.  Mirrors the guard
`if (ossClientInitialized && ossClientInstance) return ossClientInstance`:
the cached value is returned only when the stored instance is truthy. -/
def createOSSClient (s : OSSClientState) (resolve : Option Nat) :
    Option Nat × OSSClientState × Bool :=
  if s.initialized && s.instanceVal.isSome then (s.instanceVal, s, false)
  else
    match resolve with
    | some c => (some c, ⟨some c, true⟩, true)
    | none => (none, ⟨none, true⟩, true)

/-- `resetOSSClient()` (server.js lines 719-723): clears both variables. -/
def resetOSSClient (_ : OSSClientState) : OSSClientState :=
  ⟨none, false⟩

/-! ## JavaScript value model for the un-awaited client handle

Several call sites read `const client = createOSSClient();` without
`await` although `createOSSClient` is `async`, so `client` holds a pending
`Promise` object, not the resolved client-or-`null`. -/

/-- A JavaScript value as observed at such a call site. -/
inductive JSVal where
  | promiseOf (resolved : Option Nat)
  | clientVal (c : Nat)
  | nullVal
deriving DecidableEq, Repr

/-- JavaScript truthiness: any object (a `Promise` or a client) is truthy,
`null` is falsy. -/
def jsTruthy : JSVal → Bool
  | .promiseOf _ => true
  | .clientVal _ => true
  | .nullVal => false

/-- Invoking an OSS client method (`client.list`, `client.put`,
`client.delete`, ...) on the value: a `Promise` object has no such method
(a `TypeError` is thrown), `null` cannot be dereferenced, a real client
dispatches the call. -/
def jsClientCall : JSVal → Except String Nat
  | .promiseOf _ => .error "client method is not a function"
  | .nullVal => .error "Cannot read properties of null"
  | .clientVal c => .ok c

/-- Outcome of `testOSSConnection` (server.js lines 696-716). -/
inductive OSSTestOutcome where
  | unavailableBranch
  | listCalled (ok : Bool)
deriving DecidableEq, Repr

/-- `testOSSConnection()` (server.js lines 696-716).  The source reads
`const client = createOSSClient();` with no `await`, so `client` is the
pending promise of the eventual resolution `resolve`.  The `if (!client)`
unavailable check then tests the promise object; when passed,
`client.list({...})` is invoked on it inside `try`, and any error returns
`false`. -/
def testOSSConnection (resolve : Option Nat) : OSSTestOutcome :=
  let client := JSVal.promiseOf resolve
  if jsTruthy client = false then .unavailableBranch
  else
    match jsClientCall client with
    | .ok _ => .listCalled true
    | .error _ => .listCalled false

/-- Outcome of the client check in `app.post('/api/upload-audio-file')`. -/
inductive UploadCheckOutcome where
  | unavailableBranch500
  | putAttempted (ok : Bool)
deriving DecidableEq, Repr

/-- The object-store section of `app.post('/api/upload-audio-file')`
(server.js lines 1133-1152): `const client = createOSSClient();` with no
`await`, then `if (!client) return 500 'OSS配置不完整...'`, else
`client.put(...)` inside `try`, whose error yields a 500. -/
def uploadAudioFileClientCheck (resolve : Option Nat) : UploadCheckOutcome :=
  let client := JSVal.promiseOf resolve
  if jsTruthy client = false then .unavailableBranch500
  else
    match jsClientCall client with
    | .ok _ => .putAttempted true
    | .error _ => .putAttempted false

/-! ## Transcription poll loop (`audioToTextWithParaformer`) -/

/-- The `task_status` field polled from the remote transcription job. -/
inductive JobStatus where
  | RUNNING
  | SUCCEEDED
  | FAILED (msg : String)
deriving DecidableEq, Repr

/-- How the poll loop of `audioToTextWithParaformer` ends. -/
inductive PollOutcome where
  | succeeded (attempt : Nat)
  | failedMsg (thrown : String)
  | timeout (thrown : String)
deriving DecidableEq, Repr

/-- Observable trace of one run of the poll loop: its outcome, the number
of status queries issued, the number of 5-second waits performed, and the
number of remote-object deletes performed. -/
structure PollRun where
  outcome : PollOutcome
  queries : Nat
  sleeps : Nat
  remoteDeletes : Nat
deriving DecidableEq, Repr

/-- The 5000 ms interval of
`await new Promise(resolve => setTimeout(resolve, 5000))`. -/
def pollIntervalMs : Nat := 5000

/-- `maxAttempts = 30` (server.js line 444). -/
def maxPollAttempts : Nat := 30

/-- The poll loop body of `audioToTextWithParaformer` (server.js lines
441-480).  `query n` is the `task_status` returned by the n-th status
query (1-based).  `remaining` counts the loop iterations still allowed
(`maxAttempts - attempts`), `attempts`/`queries`/`sleeps` accumulate as in
the source: every iteration increments `attempts` and issues one query;
`SUCCEEDED` breaks, `FAILED` throws `'转写任务失败: ' + message`, otherwise
the loop sleeps 5 s and continues; an exhausted loop leaves `result`
undefined and throws `'转写任务超时'`.  The function contains no OSS delete
call on any path, hence `remoteDeletes = 0` throughout. -/
def paraformerPollAux (query : Nat → JobStatus) :
    Nat → Nat → Nat → Nat → PollRun
  | 0, _, queries, sleeps => ⟨.timeout "转写任务超时", queries, sleeps, 0⟩
  | remaining + 1, attempts, queries, sleeps =>
    match query (attempts + 1) with
    | .SUCCEEDED => ⟨.succeeded (attempts + 1), queries + 1, sleeps, 0⟩
    | .FAILED m => ⟨.failedMsg ("转写任务失败: " ++ m), queries + 1, sleeps, 0⟩
    | .RUNNING =>
        paraformerPollAux query remaining (attempts + 1) (queries + 1) (sleeps + 1)

/-- The full poll phase: `attempts = 0`, `maxAttempts = 30`. -/
def paraformerPoll (query : Nat → JobStatus) : PollRun :=
  paraformerPollAux query maxPollAttempts 0 0 0

/-- The `FAILED` branch of the poll loop in `app.post('/api/transcribe-audio')`
(server.js lines 1432-1443): inside `try`, `const client = createOSSClient();`
(no `await`), `if (client) await client.delete(ossFileName)`; any error is
caught and logged (`console.warn`), then the handler responds
`500 '转写任务失败: ' + message`.  Result:
`((status, body), delete attempted, delete succeeded)`. -/
def transcribeAudioOnFailed (resolve : Option Nat) (serviceMsg : String) :
    (Nat × String) × Bool × Bool :=
  let client := JSVal.promiseOf resolve
  let del :=
    if jsTruthy client then
      match jsClientCall client with
      | .ok _ => (true, true)
      | .error _ => (true, false)
    else (false, false)
  ((500, "转写任务失败: " ++ serviceMsg), del)

/-! ## JavaScript whitespace and `trim()` -/

/-- The `\s` character class of the source's regexes, which is also the
character set removed by JavaScript's `trim()`: space, tab, line and page
breaks, and the Unicode space separators. -/
def isWsChar (c : Char) : Bool :=
  c = ' ' || c = '\t' || c = '\n' || c = '\r' || c = '\x0b' || c = '\x0c' ||
  c.toNat = 0xa0 || c.toNat = 0x1680 ||
  (0x2000 ≤ c.toNat && c.toNat ≤ 0x200a) ||
  c.toNat = 0x2028 || c.toNat = 0x2029 || c.toNat = 0x202f ||
  c.toNat = 0x205f || c.toNat = 0x3000 || c.toNat = 0xfeff

/-- Leading half of `.trim()`. -/
def ltrimWs (l : List Char) : List Char :=
  l.dropWhile isWsChar

/-- Trailing half of `.trim()`. -/
def rtrimWs : List Char → List Char
  | [] => []
  | c :: rest =>
      let r := rtrimWs rest
      if r.isEmpty && isWsChar c then [] else c :: r

/-- JavaScript's `String.prototype.trim()`. -/
def jsTrim (s : String) : String :=
  ⟨rtrimWs (ltrimWs s.data)⟩

/-! ## Transcription result extraction (`audioToTextWithParaformer`,
server.js lines 482-569)

Result payloads are duck-typed JSON; optional fields become `Option`, and
JavaScript truthiness of a string field (`if (x.text)`) is the explicit
`truthyStr` below (`''` is falsy). -/

/-- JavaScript truthiness of an optional string field. -/
def truthyStr : Option String → Bool
  | some s => !(s = "")
  | none => false

/-- An element of a duck-typed `sentences`/`transcripts`-style collection:
the source reads `s.text` and (in the first-entry fallback) `s.sentence`. -/
structure SentenceObj where
  text : Option String
  sentence : Option String
deriving DecidableEq, Repr

/-- A duck-typed JSON value sitting in a `transcripts`/`sentences` field:
an array of objects, a plain string, or some other (truthy) value. -/
inductive SentencesVal where
  | arr (items : List SentenceObj)
  | strv (s : String)
  | other
deriving DecidableEq, Repr

/-- JavaScript truthiness of such a field: arrays and objects are always
truthy, a string only when non-empty. -/
def sentencesTruthy : SentencesVal → Bool
  | .strv s => !(s = "")
  | .arr _ => true
  | .other => true

/-- The variant shapes of `payload.result` the source distinguishes with
`Array.isArray` / `typeof === 'object'` / `typeof === 'string'`:
an array of entries (only `r.text` read, `|| ''`), an object (fields
`text` and `sentences`), or a plain string. -/
inductive PayloadResult where
  | arr (texts : List (Option String))
  | obj (text : Option String) (sentences : Option SentencesVal)
  | strv (s : String)
deriving DecidableEq, Repr

/-- Truthiness of the `payload.result` value itself
(`if (payload && payload.result)`). -/
def payloadResultTruthy : PayloadResult → Bool
  | .strv s => !(s = "")
  | .arr _ => true
  | .obj _ _ => true

/-- The body fetched from an entry's `transcription_url`
(`transcriptionResponse.data`): a `transcripts` field and/or a
`payload.result` field. -/
structure SecondaryBody where
  transcripts : Option SentencesVal
  payloadResult : Option PayloadResult
deriving DecidableEq, Repr

/-- Extraction from `payload.result` (server.js lines 516-535): an array
joins each element's `text || ''` with `'\n'`; an object uses `.text` when
truthy, else a `sentences` array joined likewise; a plain string is used
directly. -/
def extractFromPayloadResult : PayloadResult → String
  | .arr texts => String.intercalate "\n" (texts.map (fun t => t.getD ""))
  | .obj text sentences =>
      if truthyStr text then text.getD ""
      else
        match sentences with
        | some (.arr objs) =>
            String.intercalate "\n" (objs.map (fun s => s.text.getD ""))
        | some (.strv _) => ""
        | some .other => ""
        | none => ""
  | .strv s => s

/-- Extraction from a fetched secondary body (server.js lines 507-536):
a truthy `transcripts` wins (joined element texts when it is an array,
nothing otherwise); else a truthy `payload` with truthy `payload.result`
is unwrapped. -/
def extractSecondary (b : SecondaryBody) : String :=
  match b.transcripts with
  | some tv =>
      if sentencesTruthy tv then
        match tv with
        | .arr objs =>
            String.intercalate "\n" (objs.map (fun t => t.text.getD ""))
        | _ => ""
      else
        match b.payloadResult with
        | some r => if payloadResultTruthy r then extractFromPayloadResult r else ""
        | none => ""
  | none =>
      match b.payloadResult with
      | some r => if payloadResultTruthy r then extractFromPayloadResult r else ""
      | none => ""

/-- One entry of `result.output.results`. -/
structure ResultItem where
  transcription_url : Option String
  text : Option String
  sentence : Option String
  sentences : Option SentencesVal
deriving DecidableEq, Repr

/-- What the secondary-URL path contributes for a given URL: the extracted
body on success, or (in the `catch (fetchError)` branch) the literal
failure note appended to the accumulator. -/
def secondaryOutcome (fetch : String → Except String SecondaryBody)
    (url : String) : String :=
  match fetch url with
  | .ok body => extractSecondary body
  | .error msg => "获取转录结果失败: " ++ msg

/-- The per-entry extraction (server.js lines 494-545): a truthy
`transcription_url` takes the secondary-URL path; else a truthy `text`
field is appended with `'\n'`; else a truthy `sentence` field likewise;
else nothing. -/
def extractItem (fetch : String → Except String SecondaryBody)
    (item : ResultItem) : String :=
  if truthyStr item.transcription_url then
    secondaryOutcome fetch (item.transcription_url.getD "")
  else if truthyStr item.text then item.text.getD "" ++ "\n"
  else if truthyStr item.sentence then item.sentence.getD "" ++ "\n"
  else ""

/-- The first-entry fallback (server.js lines 549-564), run only when the
accumulated text is still empty: `firstResult.sentence`, else a
`sentences` field (array joined with `' '` over `s.text || s.sentence || ''`,
or a plain string), else `firstResult.text`. -/
def fallbackFirst (first : ResultItem) : String :=
  if truthyStr first.sentence then first.sentence.getD ""
  else
    match first.sentences with
    | some sv =>
        if sentencesTruthy sv then
          match sv with
          | .arr objs =>
              String.intercalate " " (objs.map (fun s =>
                if truthyStr s.text then s.text.getD ""
                else if truthyStr s.sentence then s.sentence.getD "" else ""))
          | .strv s => s
          | .other => ""
        else if truthyStr first.text then first.text.getD "" else ""
    | none => if truthyStr first.text then first.text.getD "" else ""

/-- The `result.output` object of a SUCCEEDED query response; `results`
is absent when the field is missing. -/
structure TaskOutput where
  results : Option (List ResultItem)
deriving DecidableEq, Repr

/-- The whole extraction phase (server.js lines 482-566): accumulate
`extractItem` over `output.results` in order; when the accumulator is
still empty (`!transcriptionText`) and the collection is non-empty,
inspect the first entry. -/
def extractTranscription (fetch : String → Except String SecondaryBody)
    (out : TaskOutput) : String :=
  match out.results with
  | none => ""
  | some items =>
      let acc := items.foldl (fun a it => a ++ extractItem fetch it) ""
      if acc = "" then
        match items with
        | [] => acc
        | first :: _ => fallbackFirst first
      else acc

/-- The literal fallback `'未识别到文本内容'` ("no text recognized"). -/
def noTextFallback : String := "未识别到文本内容"

/-- The returned value (server.js line 569):
`transcriptionText.trim() || '未识别到文本内容'`. -/
def audioToTextReturn (fetch : String → Except String SecondaryBody)
    (out : TaskOutput) : String :=
  let t := extractTranscription fetch out
  if jsTrim t = "" then noTextFallback else jsTrim t

/-! ## Audio merge (`mergeAudioFiles`, server.js lines 656-693) -/

/-- The audio directory as a map from file name to byte content. -/
def AudioFS := String → Option (List Nat)

/-- Writing (or deleting, with `none`) a file. -/
def fsWrite (fs : AudioFS) (path : String) (data : Option (List Nat)) : AudioFS :=
  fun q => if q = path then data else fs q

/-- The error message thrown when `{taskId}_temp.webm` is missing, after
the outer catch wraps it (`'合并音频文件失败: ' + message`). -/
def mergeNotFound : String := "合并音频文件失败: 临时音频文件不存在"

/-- `mergeAudioFiles(taskId)` (server.js lines 656-693): requires the temp
file `{taskId}_temp.webm`; when the canonical `{taskId}.webm` exists, the
canonical file is rewritten as canonical bytes ++ temp bytes and the temp
file deleted; otherwise the temp file is renamed to the canonical name.
(The file-system calls themselves are modelled as always succeeding, so
the `catch` around the concatenation branch fires exactly when the
canonical file is absent.)  Returns the new directory state and the
returned file name `{taskId}.webm`. -/
def mergeAudioFiles (fs : AudioFS) (taskId : String) :
    Except String (AudioFS × String) :=
  let tempAudioPath := taskId ++ "_temp.webm"
  let finalAudioPath := taskId ++ ".webm"
  match fs tempAudioPath with
  | none => .error mergeNotFound
  | some tempData =>
      match fs finalAudioPath with
      | some finalData =>
          let mergedData := finalData ++ tempData
          let fs1 := fsWrite fs finalAudioPath (some mergedData)
          let fs2 := fsWrite fs1 tempAudioPath none
          .ok (fs2, taskId ++ ".webm")
      | none =>
          let fs1 := fsWrite (fsWrite fs finalAudioPath (some tempData))
            tempAudioPath none
          .ok (fs1, taskId ++ ".webm")

/-! ## Live summarize precondition (`app.post('/api/generate-audio-summary/:id')`,
server.js lines 1250-1312) -/

/-- The phases of the handler up to and including the first task-record
write.  `audioExists` reports `fs.access` on the audio directory;
`uploadRes` abstracts the upload-to-OSS stage run after the task is first
saved as `processing` (`.ok url` on success, `.error msg` when any stage
throws).  Result: `((HTTP status, body text), task store after the
request)`.  A missing task makes `readTask` throw, and the catch handler's
own `readTask` throws again, so no write happens; a type mismatch or a
missing canonical audio file returns 400 before any write. -/
def generateAudioSummary (store : TaskStore) (audioExists : String → Bool)
    (id : String) (uploadRes : Except String String) :
    (Nat × String) × TaskStore :=
  match store id with
  | none => ((500, "读取任务失败"), store)
  | some task =>
      if task.type ≠ "live" then ((400, "任务不存在或不是直播任务"), store)
      else if audioExists (task.id ++ ".webm") = false then
        ((400, "音频文件不存在，请先完成录制"), store)
      else
        let task1 := { task with status := "processing" }
        let store1 := saveTask store task1
        match uploadRes with
        | .ok _ => ((200, "音频文件上传完成，等待生成摘要"), store1)
        | .error msg =>
            ((500, msg),
             match store1 id with
             | none => store1
             | some t =>
                 saveTask store1 { t with status := "failed",
                                          summary := some ("摘要生成失败: " ++ msg) })

/-! ## Webpage text extraction (`fetchWebPageContent`, server.js lines 202-229)

The body is processed as a sequence of characters (`List Char`):
1. `/<script\b[^<]*(?:(?!<\/script>)<[^<]*)*<\/script>/gi` → `''`
2. the same for `style`
3. `/<[^>]+>/g` → `' '`
4. `/\s+/g` → `' '`, then `.trim()`, then `.substring(0, 10000)`. -/

/-- The `\w` class backing the `\b` boundary in `<script\b` / `<style\b`. -/
def isWordChar (c : Char) : Bool :=
  c.isAlpha || c.isDigit || c = '_'

/-- Case-insensitive character comparison for the letters occurring in the
literal patterns `<script`, `</script>`, `<style`, `</style>` (the `/i`
flag of the source regexes; only these letters can occur in a pattern). -/
def ciEq (p x : Char) : Bool :=
  x == p ||
  match p with
  | 's' => x == 'S'
  | 'c' => x == 'C'
  | 'r' => x == 'R'
  | 'i' => x == 'I'
  | 'p' => x == 'P'
  | 't' => x == 'T'
  | 'y' => x == 'Y'
  | 'l' => x == 'L'
  | 'e' => x == 'E'
  | _ => false

/-- Does `l` start with the pattern `pat`, case-insensitively? -/
def startsWithCI : List Char → List Char → Bool
  | [], _ => true
  | _ :: _, [] => false
  | p :: ps, c :: cs => ciEq p c && startsWithCI ps cs

/-- The `\b` boundary after `<script` / `<style`: the following character
(when any) is not a word character. -/
def boundaryOk : List Char → Bool
  | [] => true
  | c :: _ => !isWordChar c

/-- Scan for the first case-insensitive occurrence of `pat`; returns the
suffix immediately after it. -/
def findCloseCI (pat : List Char) : List Char → Option (List Char)
  | [] => none
  | c :: rest =>
      if startsWithCI pat (c :: rest) then some ((c :: rest).drop pat.length)
      else findCloseCI pat rest

/-- One global pass of the element-removal regex: a match starts at a
case-insensitive `openPat` followed by a non-word boundary and extends to
the first case-insensitive `closePat` (the regex body
`[^<]*(?:(?!closePat)<[^<]*)*` cannot step over the close tag); the match
is replaced by nothing and scanning resumes after it.  Without a close tag
there is no match and the character is copied.  `fuel` is a structural
bound, instantiated with the list length (each step consumes at least one
character, so the fuel never runs out). -/
def removeElemsFuel (openPat closePat : List Char) : Nat → List Char → List Char
  | 0, l => l
  | _ + 1, [] => []
  | fuel + 1, c :: rest =>
      if startsWithCI openPat (c :: rest) &&
         boundaryOk ((c :: rest).drop openPat.length) then
        match findCloseCI closePat ((c :: rest).drop openPat.length) with
        | some after => removeElemsFuel openPat closePat fuel after
        | none => c :: removeElemsFuel openPat closePat fuel rest
      else c :: removeElemsFuel openPat closePat fuel rest

def scriptOpen : List Char := "<script".data
def scriptClose : List Char := "</script>".data
def styleOpen : List Char := "<style".data
def styleClose : List Char := "</style>".data

/-- `text.replace(/<script\b[^<]*(?:(?!<\/script>)<[^<]*)*<\/script>/gi, '')`. -/
def removeScript (l : List Char) : List Char :=
  removeElemsFuel scriptOpen scriptClose l.length l

/-- `text.replace(/<style\b[^<]*(?:(?!<\/style>)<[^<]*)*<\/style>/gi, '')`. -/
def removeStyle (l : List Char) : List Char :=
  removeElemsFuel styleOpen styleClose l.length l

/-- One global pass of `text.replace(/<[^>]+>/g, ' ')` as a scanner:
outside a candidate (`none`) a `<` opens a candidate; inside (`some buf`,
the buffered non-`>` characters in reverse), a `>` closes it — a match
when the buffer is non-empty (the `+`), otherwise the literal `<>` is
emitted — and the end of input flushes an unclosed candidate literally. -/
def tagsAux : List Char → Option (List Char) → List Char
  | [], none => []
  | [], some buf => '<' :: buf.reverse
  | c :: rest, none =>
      if c = '<' then tagsAux rest (some [])
      else c :: tagsAux rest none
  | c :: rest, some buf =>
      if c = '>' then
        if buf.isEmpty then '<' :: '>' :: tagsAux rest none
        else ' ' :: tagsAux rest none
      else tagsAux rest (some (c :: buf))

/-- `text.replace(/<[^>]+>/g, ' ')`. -/
def replaceTags (l : List Char) : List Char :=
  tagsAux l none

/-- One global pass of `text.replace(/\s+/g, ' ')`: each maximal run of
whitespace becomes a single space (`inRun` remembers that the previous
character was part of a run already emitted). -/
def collapseAux : List Char → Bool → List Char
  | [], _ => []
  | c :: rest, inRun =>
      if isWsChar c then
        if inRun then collapseAux rest true
        else ' ' :: collapseAux rest true
      else c :: collapseAux rest false

/-- `text.replace(/\s+/g, ' ')`. -/
def collapseWs (l : List Char) : List Char :=
  collapseAux l false

/-- The processed text right before `.substring(0, 10000)`. -/
def fetchPreTruncate (html : List Char) : List Char :=
  rtrimWs (ltrimWs (collapseWs (replaceTags (removeStyle (removeScript html)))))

/-- `fetchWebPageContent` applied to a fetched body: the full processing
chain ending in `.substring(0, 10000)`. -/
def fetchWebPageContent (html : List Char) : List Char :=
  (fetchPreTruncate html).take 10000

/-! ### Checkers for the extracted text -/

/-- Does the list contain a `>`? -/
def hasGt : List Char → Bool
  | [] => false
  | c :: rest => (c == '>') || hasGt rest

/-- Would a `<` placed in front of `l` start a match of `<[^>]+>`?
(at least one non-`>` character and then a `>`). -/
def startsTag : List Char → Bool
  | [] => false
  | c :: t => !(c == '>') && hasGt t

/-- Does the list contain an occurrence of `<[^>]+>` — an HTML tag? -/
def hasTag : List Char → Bool
  | [] => false
  | c :: rest => (if c = '<' then startsTag rest else false) || hasTag rest

/-- Is the first character (when any) not whitespace? -/
def headNoWs : List Char → Bool
  | [] => true
  | c :: _ => !isWsChar c

/-- Is the last character (when any) not whitespace? -/
def lastNoWs : List Char → Bool
  | [] => true
  | [c] => !isWsChar c
  | _ :: c :: rest => lastNoWs (c :: rest)

/-- Every whitespace character is a plain space and is followed by a
non-whitespace character (no run of two). -/
def noWsRun : List Char → Bool
  | [] => true
  | c :: rest =>
      (if isWsChar c then (c == ' ') && headNoWs rest else true) && noWsRun rest

/-- Concrete audio directory used to exercise `mergeAudioFiles`: a temp
chunk `[1, 2]` for task `a` and a canonical file `[9]`. -/
def sampleAudioFS : AudioFS :=
  fun p =>
    if p = "a_temp.webm" then some [1, 2]
    else if p = "a.webm" then some [9] else none

/-- Concrete audio directory with only the temp file of task `a`. -/
def sampleAudioFSNoCanon : AudioFS :=
  fun p => if p = "a_temp.webm" then some [1, 2] else none

end AiSummary

namespace AiSummary

/-! # Theorems -/

/-! ## C1 — failure handlers of the three pipelines -/

/-- C1 counterexample: a live task in status `processing` with
`isRecording = true`; when the live summarize pipeline
(`/api/process-audio-summary`) fails, the saved record has
`status = 'failed'` but `isRecording` is still `true` — the handler does
not force it to `false`, contradicting the claim that all three failure
paths do. -/
theorem C1_counterexample :
    (processAudioSummaryCatch liveStore "t1" "boom" "t1").map Task.status
      = some "failed" ∧
    (processAudioSummaryCatch liveStore "t1" "boom" "t1").map Task.isRecording
      = some (some true) := by
  exact ⟨rfl, rfl⟩

/-- C1 (amended): when a stage errors, each of the three failure handlers
saves the task with `status = 'failed'` and a summary that is a
human-readable cause carrying the error message; the stop-capture handler
additionally forces `isRecording` to `false`, while the webpage and live
summarize handlers leave `isRecording` unchanged. -/
theorem C1_amended (store : TaskStore) (id errMsg : String) (t : Task)
    (h : store id = some t) (hid : t.id = id) :
    processWebpageCatch store id errMsg id
      = some { t with status := "failed",
                      summary := some ("处理失败: " ++ errMsg) } ∧
    stopRecordingCatch store id errMsg id
      = some { t with status := "failed", isRecording := some false,
                      summary := some ("处理失败: " ++ errMsg) } ∧
    processAudioSummaryCatch store id errMsg id
      = some { t with status := "failed",
                      summary := some ("摘要生成失败: " ++ errMsg) } ∧
    (processWebpageCatch store id errMsg id).map Task.isRecording
      = some t.isRecording ∧
    (processAudioSummaryCatch store id errMsg id).map Task.isRecording
      = some t.isRecording := by
  refine ⟨?_, ?_, ?_, ?_, ?_⟩ <;>
    simp [processWebpageCatch, stopRecordingCatch, processAudioSummaryCatch,
          saveTask, h, hid]

/-- Witness for `C1_amended` at a concrete store and task. -/
theorem C1_amended_witness :
    stopRecordingCatch liveStore "t1" "boom" "t1"
      = some { liveTask with status := "failed", isRecording := some false,
                             summary := some ("处理失败: " ++ "boom") } :=
  (C1_amended liveStore "t1" "boom" liveTask rfl rfl).2.1

/-! ## C7 — object-store client caching -/

/-- C7 counterexample: starting from the fresh module state, an
`acquire()` that resolves to the unavailable value records
`initialized = true, instance = null`, yet the next `acquire()`
re-resolves configuration (third component `true`): the guard
`ossClientInitialized && ossClientInstance` rejects the cached `null`. -/
theorem C7_counterexample :
    (createOSSClient ⟨none, false⟩ none).1 = none ∧
    (createOSSClient ⟨none, false⟩ none).2.1 = ⟨none, true⟩ ∧
    (createOSSClient (createOSSClient ⟨none, false⟩ none).2.1 none).2.2 = true := by
  exact ⟨rfl, rfl, rfl⟩

/-- C7 (amended): a *connected* client returned by `acquire()` is cached
process-wide — every later `acquire()` returns it without re-resolving
configuration; an *unavailable* result is not effectively cached — the
next `acquire()` re-resolves configuration from scratch; and after
`reset()` the next `acquire()` re-resolves configuration. -/
theorem C7_amended (s : OSSClientState) (r r2 : Option Nat) (c : Nat) :
    ((createOSSClient s r).1 = some c →
      createOSSClient (createOSSClient s r).2.1 r2
        = (some c, (createOSSClient s r).2.1, false)) ∧
    ((createOSSClient s r).1 = none →
      (createOSSClient (createOSSClient s r).2.1 r2).1 = r2 ∧
      (createOSSClient (createOSSClient s r).2.1 r2).2.2 = true) ∧
    ((createOSSClient (resetOSSClient s) r).1 = r ∧
     (createOSSClient (resetOSSClient s) r).2.2 = true) := by
  obtain ⟨inst, init⟩ := s
  refine ⟨?_, ?_, ?_⟩
  · intro h
    cases init <;> cases inst <;> cases r <;> simp_all [createOSSClient]
  · intro h
    cases init <;> cases inst <;> cases r <;> cases r2 <;>
      simp_all [createOSSClient]
  · cases r <;> simp [createOSSClient, resetOSSClient]

/-- Witness for `C7_amended`: a cached connected client is returned
without re-resolution, and reset forces re-resolution. -/
theorem C7_amended_witness :
    createOSSClient (createOSSClient ⟨some 7, true⟩ none).2.1 (some 9)
      = (some 7, (createOSSClient ⟨some 7, true⟩ none).2.1, false) :=
  (C7_amended ⟨some 7, true⟩ none (some 9) 7).1 rfl

/-! ## C8 — unavailable sentinel check before use -/

/-- C8: because `testOSSConnection` and the `/api/upload-audio-file`
handler call `createOSSClient()` without `await`, the `if (!client)`
unavailable check tests a pending `Promise` (always truthy): whatever the
configuration resolves to — even the unavailable value — the
unavailable-error branch is never taken and a client method is invoked on
the promise object, whose failure is caught instead.  This contradicts the
claim that these operations take the unavailable-error branch rather than
invoking client methods. -/
theorem C8_missing_await (resolve : Option Nat) :
    testOSSConnection resolve = .listCalled false ∧
    uploadAudioFileClientCheck resolve = .putAttempted false := by
  exact ⟨rfl, rfl⟩

/-! ## C10 — live summarize precondition -/

/-- C10: for a live task whose canonical audio file `{taskId}.webm` does
not exist, `/api/generate-audio-summary/:id` responds 400 with the
precondition error and the task store is returned unchanged — no write to
the task record happens on this path. -/
theorem C10_precondition (store : TaskStore) (audioExists : String → Bool)
    (id : String) (task : Task) (uploadRes : Except String String)
    (h : store id = some task) (htype : task.type = "live")
    (haudio : audioExists (task.id ++ ".webm") = false) :
    generateAudioSummary store audioExists id uploadRes
      = ((400, "音频文件不存在，请先完成录制"), store) := by
  simp [generateAudioSummary, h, htype, haudio]

/-- Witness for `C10_precondition` at a concrete store. -/
theorem C10_precondition_witness :
    generateAudioSummary liveStore (fun _ => false) "t1" (.ok "url")
      = ((400, "音频文件不存在，请先完成录制"), liveStore) :=
  C10_precondition liveStore (fun _ => false) "t1" liveTask (.ok "url")
    rfl rfl rfl

/-! ## C2 — poll loop termination -/

/-- On a job that never leaves `RUNNING`, the loop runs through all its
remaining iterations, adding one query and one 5-second wait per
iteration, and times out. -/
theorem paraformerPollAux_running (query : Nat → JobStatus)
    (h : ∀ n, query n = .RUNNING) :
    ∀ remaining attempts queries sleeps,
      paraformerPollAux query remaining attempts queries sleeps
        = ⟨.timeout "转写任务超时", queries + remaining, sleeps + remaining, 0⟩ := by
  intro remaining
  induction remaining with
  | zero => intro a q s; simp [paraformerPollAux]
  | succ n ih =>
      intro a q s
      rw [paraformerPollAux, h (a + 1), ih]
      simp only [PollRun.mk.injEq, true_and, and_true]
      omega

/-- The loop never issues more queries than it has iterations left. -/
theorem paraformerPollAux_queries_le (query : Nat → JobStatus) :
    ∀ remaining attempts queries sleeps,
      (paraformerPollAux query remaining attempts queries sleeps).queries
        ≤ queries + remaining := by
  intro remaining
  induction remaining with
  | zero => intro a q s; simp [paraformerPollAux]
  | succ n ih =>
      intro a q s
      rw [paraformerPollAux]
      cases hq : query (a + 1) with
      | RUNNING => exact le_trans (ih (a + 1) (q + 1) (s + 1)) (by omega)
      | SUCCEEDED => simp
      | FAILED m => simp

/-- C2: on a job whose polled status never leaves `RUNNING`, the poll loop
of `audioToTextWithParaformer` issues exactly 30 status queries, performs
one 5-second wait after each (30 × 5000 ms = 150 s, so successive queries
are 5 s apart), and ends by throwing the timeout error `'转写任务超时'`;
moreover no run of the loop, whatever the job statuses, ever issues more
than 30 queries. -/
theorem C2_poll_timeout (query : Nat → JobStatus)
    (h : ∀ n, query n = .RUNNING) :
    paraformerPoll query = ⟨.timeout "转写任务超时", 30, 30, 0⟩ ∧
    (paraformerPoll query).sleeps * pollIntervalMs = 150000 ∧
    ∀ q : Nat → JobStatus, (paraformerPoll q).queries ≤ 30 := by
  have hmain : paraformerPoll query = ⟨.timeout "转写任务超时", 30, 30, 0⟩ := by
    simpa [paraformerPoll, maxPollAttempts]
      using paraformerPollAux_running query h maxPollAttempts 0 0 0
  refine ⟨hmain, ?_, ?_⟩
  · rw [hmain]
    rfl
  · intro q
    simpa [paraformerPoll, maxPollAttempts]
      using paraformerPollAux_queries_le q maxPollAttempts 0 0 0

/-- Witness for `C2_poll_timeout` at the constantly-`RUNNING` job. -/
theorem C2_poll_timeout_witness :
    paraformerPoll (fun _ => .RUNNING) = ⟨.timeout "转写任务超时", 30, 30, 0⟩ :=
  (C2_poll_timeout (fun _ => .RUNNING) (fun _ => rfl)).1

/-! ## C4 — FAILED transcription jobs -/

/-- C4 counterexample: a job whose first poll reports `FAILED 'bad audio'`.
The poll loop of `audioToTextWithParaformer` throws
`'转写任务失败: bad audio'` (carrying the service message), but its trace
contains zero remote-object deletes: the function body has no OSS delete
call, contradicting the claim that the transcription client best-effort
deletes the associated remote object on every FAILED job. -/
theorem C4_counterexample :
    paraformerPoll (fun _ => .FAILED "bad audio")
      = ⟨.failedMsg "转写任务失败: bad audio", 1, 0, 0⟩ ∧
    (paraformerPoll (fun _ => .FAILED "bad audio")).remoteDeletes = 0 := by
  exact ⟨rfl, rfl⟩

/-- C4 (amended): on a first poll reporting `FAILED`, the poll loop of
`audioToTextWithParaformer` throws `'转写任务失败: ' + message` after one
query, with no remote-object delete; by contrast the
`/api/transcribe-audio` handler's FAILED branch responds
`500 '转写任务失败: ' + message` and *attempts* a best-effort delete whose
failure (the un-awaited client handle) is caught and logged, never
propagated — so no remote delete actually succeeds there either. -/
theorem C4_amended (query : Nat → JobStatus) (m : String)
    (resolve : Option Nat) (h : query 1 = .FAILED m) :
    paraformerPoll query = ⟨.failedMsg ("转写任务失败: " ++ m), 1, 0, 0⟩ ∧
    (paraformerPoll query).remoteDeletes = 0 ∧
    transcribeAudioOnFailed resolve m
      = ((500, "转写任务失败: " ++ m), true, false) := by
  have hstep : paraformerPollAux query (29 + 1) 0 0 0
      = ⟨.failedMsg ("转写任务失败: " ++ m), 0 + 1, 0, 0⟩ := by
    rw [paraformerPollAux]
    have h1 : query (0 + 1) = .FAILED m := h
    rw [h1]
  have hmain : paraformerPoll query
      = ⟨.failedMsg ("转写任务失败: " ++ m), 1, 0, 0⟩ := by
    simpa [paraformerPoll, maxPollAttempts] using hstep
  exact ⟨hmain, by rw [hmain], rfl⟩

/-- Witness for `C4_amended` at a concrete failing job. -/
theorem C4_amended_witness :
    transcribeAudioOnFailed (some 3) "oops"
      = ((500, "转写任务失败: " ++ "oops"), true, false) :=
  (C4_amended (fun _ => .FAILED "oops") "oops" (some 3) rfl).2.2

/-! ## C3 — audio merge -/

/-- The temp and canonical file names of a task never coincide. -/
theorem tempPath_ne_canonicalPath (tid : String) :
    tid ++ "_temp.webm" ≠ tid ++ ".webm" := by
  intro he
  have h2 := congrArg String.length he
  simp [String.length_append] at h2
  exact absurd h2 (by decide)

/-- C3: `mergeAudioFiles(taskId)` (1) fails with the not-found error when
no temp file `{taskId}_temp.webm` exists; (2) with a temp file and no
canonical file it renames temp to canonical (canonical gets exactly the
temp bytes, temp disappears, every other file is untouched); (3) with
both files it writes canonical := canonical bytes ++ temp bytes and
deletes the temp file; and in both success cases an immediate second
`merge` fails with the not-found error, so the same bytes are never
appended twice. -/
theorem C3_merge (fs : AudioFS) (tid : String) :
    (fs (tid ++ "_temp.webm") = none →
        mergeAudioFiles fs tid = .error mergeNotFound) ∧
    (∀ d, fs (tid ++ "_temp.webm") = some d → fs (tid ++ ".webm") = none →
        ∃ fs1, mergeAudioFiles fs tid = .ok (fs1, tid ++ ".webm") ∧
          fs1 (tid ++ ".webm") = some d ∧
          fs1 (tid ++ "_temp.webm") = none ∧
          (∀ p, p ≠ tid ++ ".webm" → p ≠ tid ++ "_temp.webm" → fs1 p = fs p) ∧
          mergeAudioFiles fs1 tid = .error mergeNotFound) ∧
    (∀ d c, fs (tid ++ "_temp.webm") = some d → fs (tid ++ ".webm") = some c →
        ∃ fs1, mergeAudioFiles fs tid = .ok (fs1, tid ++ ".webm") ∧
          fs1 (tid ++ ".webm") = some (c ++ d) ∧
          fs1 (tid ++ "_temp.webm") = none ∧
          (∀ p, p ≠ tid ++ ".webm" → p ≠ tid ++ "_temp.webm" → fs1 p = fs p) ∧
          mergeAudioFiles fs1 tid = .error mergeNotFound) := by
  have hne := tempPath_ne_canonicalPath tid
  have hne2 : ¬tid ++ ".webm" = tid ++ "_temp.webm" := fun he => hne he.symm
  refine ⟨?_, ?_, ?_⟩
  · intro h
    simp [mergeAudioFiles, h]
  · intro d htemp hcanon
    refine ⟨fsWrite (fsWrite fs (tid ++ ".webm") (some d))
              (tid ++ "_temp.webm") none, ?_, ?_, ?_, ?_, ?_⟩
    · simp [mergeAudioFiles, htemp, hcanon]
    · simp [fsWrite, hne2]
    · simp [fsWrite]
    · intro p hp1 hp2
      simp [fsWrite, hp1, hp2]
    · simp [mergeAudioFiles, fsWrite]
  · intro d c htemp hcanon
    refine ⟨fsWrite (fsWrite fs (tid ++ ".webm") (some (c ++ d)))
              (tid ++ "_temp.webm") none, ?_, ?_, ?_, ?_, ?_⟩
    · simp [mergeAudioFiles, htemp, hcanon]
    · simp [fsWrite, hne2]
    · simp [fsWrite]
    · intro p hp1 hp2
      simp [fsWrite, hp1, hp2]
    · simp [mergeAudioFiles, fsWrite]

/-- Witness for `C3_merge`: concrete merges on a two-file directory (both
files present) and a temp-only directory. -/
theorem C3_merge_witness :
    (∃ fs1, mergeAudioFiles sampleAudioFS "a" = .ok (fs1, "a" ++ ".webm") ∧
       fs1 ("a" ++ ".webm") = some ([9] ++ [1, 2]) ∧
       fs1 ("a" ++ "_temp.webm") = none ∧
       (∀ p, p ≠ "a" ++ ".webm" → p ≠ "a" ++ "_temp.webm" →
         fs1 p = sampleAudioFS p) ∧
       mergeAudioFiles fs1 "a" = .error mergeNotFound) ∧
    (∃ fs1, mergeAudioFiles sampleAudioFSNoCanon "a" = .ok (fs1, "a" ++ ".webm") ∧
       fs1 ("a" ++ ".webm") = some [1, 2] ∧
       fs1 ("a" ++ "_temp.webm") = none ∧
       (∀ p, p ≠ "a" ++ ".webm" → p ≠ "a" ++ "_temp.webm" →
         fs1 p = sampleAudioFSNoCanon p) ∧
       mergeAudioFiles fs1 "a" = .error mergeNotFound) :=
  ⟨(C3_merge sampleAudioFS "a").2.2 [1, 2] [9] rfl rfl,
   (C3_merge sampleAudioFSNoCanon "a").2.1 [1, 2] rfl rfl⟩

/-! ## C5 — extraction priority of the secondary result URL -/

/-- C5: for a result entry carrying a (truthy) `transcription_url`, the
extraction follows the secondary-URL path — the contribution is exactly
`secondaryOutcome` of that URL — and the entry's direct `text` field is
not used: the contribution is unchanged whatever that field holds. -/
theorem C5_secondary_url_wins (fetch : String → Except String SecondaryBody)
    (item : ResultItem) (url : String)
    (hurl : item.transcription_url = some url) (hne : url ≠ "") :
    extractItem fetch item = secondaryOutcome fetch url ∧
    (∀ t, extractItem fetch { item with text := t } = extractItem fetch item) := by
  constructor
  · simp [extractItem, truthyStr, hurl, hne]
  · intro t
    simp [extractItem, truthyStr, hurl, hne]

/-- Witness for `C5_secondary_url_wins`: an entry with both a secondary
URL and a direct text field; the secondary body's `transcripts` win and
the direct text `"direct"` is ignored. -/
theorem C5_secondary_url_wins_witness :
    extractItem
        (fun _ => .ok ⟨some (.arr [⟨some "hi", none⟩]), none⟩)
        ⟨some "u", some "direct", none, none⟩
      = secondaryOutcome
          (fun _ => .ok ⟨some (.arr [⟨some "hi", none⟩]), none⟩) "u" :=
  (C5_secondary_url_wins (fun _ => .ok ⟨some (.arr [⟨some "hi", none⟩]), none⟩)
    ⟨some "u", some "direct", none, none⟩ "u" rfl (by decide)).1

/-! ## C6 — extraction result contract -/

/-- C6: the value returned by `audioToTextWithParaformer` is the trimmed
accumulated text when that is non-empty, the literal fallback
`'未识别到文本内容'` ("no text recognized") when the trimmed accumulation
is empty — and it is never the empty string. -/
theorem C6_return_contract (fetch : String → Except String SecondaryBody)
    (out : TaskOutput) :
    audioToTextReturn fetch out ≠ "" ∧
    (jsTrim (extractTranscription fetch out) ≠ "" →
      audioToTextReturn fetch out = jsTrim (extractTranscription fetch out)) ∧
    (jsTrim (extractTranscription fetch out) = "" →
      audioToTextReturn fetch out = noTextFallback) := by
  unfold audioToTextReturn
  by_cases h : jsTrim (extractTranscription fetch out) = "" <;>
    simp [h, noTextFallback]

/-- Witness for `C6_return_contract`: on an empty result collection the
accumulation trims to empty and the fallback is returned. -/
theorem C6_return_contract_witness :
    audioToTextReturn (fun _ => .error "x") ⟨none⟩ = noTextFallback :=
  (C6_return_contract (fun _ => .error "x") ⟨none⟩).2.2 rfl

/-! ## C9 — webpage extraction: tag-freeness lemmas -/

/-- A list that would complete a tag contains a `>`. -/
theorem startsTag_hasGt (l : List Char) (h : startsTag l = true) :
    hasGt l = true := by
  cases l with
  | nil => simp [startsTag] at h
  | cons c t =>
      simp [startsTag] at h
      simp [hasGt, h.2]

/-- A `>`-free list contains no tag completion. -/
theorem noGt_noStartsTag (l : List Char) (h : hasGt l = false) :
    startsTag l = false := by
  cases l with
  | nil => rfl
  | cons c t =>
      simp [hasGt] at h
      simp [startsTag, h.2]

/-- A `>`-free list contains no tag. -/
theorem noGt_noTag (l : List Char) (h : hasGt l = false) :
    hasTag l = false := by
  induction l with
  | nil => rfl
  | cons c rest ih =>
      simp [hasGt] at h
      have hrest : hasGt rest = false := h.2
      by_cases hc : c = '<'
      · simp [hasTag, hc, ih hrest, noGt_noStartsTag rest hrest]
      · simp [hasTag, hc, ih hrest]

theorem hasGt_append (a b : List Char) :
    hasGt (a ++ b) = (hasGt a || hasGt b) := by
  induction a with
  | nil => simp [hasGt]
  | cons c t ih => simp [hasGt, ih, Bool.or_assoc]

theorem hasGt_reverse (l : List Char) : hasGt l.reverse = hasGt l := by
  induction l with
  | nil => rfl
  | cons c rest ih =>
      simp [hasGt, List.reverse_cons, hasGt_append, ih, Bool.or_comm]

/-- The output of the tag-replacement scanner contains no tag, as long as
the pending buffer holds no `>` (which the scanner guarantees). -/
theorem tagsAux_noTag :
    ∀ (l : List Char) (st : Option (List Char)),
      (∀ buf, st = some buf → hasGt buf = false) →
      hasTag (tagsAux l st) = false := by
  intro l
  induction l with
  | nil =>
      intro st hst
      cases st with
      | none => rfl
      | some buf =>
          have hb := hst buf rfl
          have hrev : hasGt buf.reverse = false := by rw [hasGt_reverse]; exact hb
          simp [tagsAux, hasTag, noGt_noTag _ hrev, noGt_noStartsTag _ hrev]
  | cons c rest ih =>
      intro st hst
      cases st with
      | none =>
          by_cases hc : c = '<'
          · subst hc
            simp only [tagsAux, if_pos rfl]
            exact ih (some []) (by intro buf hb; cases hb; rfl)
          · simp only [tagsAux, if_neg hc]
            simp [hasTag, hc, ih none (by intro buf hb; cases hb)]
      | some buf =>
          have hb := hst buf rfl
          by_cases hc : c = '>'
          · subst hc
            by_cases hbuf : buf.isEmpty
            · simp only [tagsAux, if_pos rfl, if_pos hbuf]
              have hout := ih none (by intro buf2 hb2; cases hb2)
              simp [hasTag, startsTag, hout]
            · simp only [tagsAux, if_pos rfl, if_neg hbuf]
              have hout := ih none (by intro buf2 hb2; cases hb2)
              simp [hasTag, hout]
          · simp only [tagsAux, if_neg hc]
            exact ih (some (c :: buf))
              (by intro buf2 hb2; cases hb2; simp [hasGt, hc, hb])

/-! ## C9 — preservation through whitespace collapse, trim and truncation -/

theorem collapseAux_noGt (l : List Char) (b : Bool) (h : hasGt l = false) :
    hasGt (collapseAux l b) = false := by
  induction l generalizing b with
  | nil => rfl
  | cons c rest ih =>
      simp [hasGt] at h
      by_cases hw : isWsChar c
      · cases b with
        | true => simp [collapseAux, hw, ih true h.2]
        | false => simp [collapseAux, hw, hasGt, ih true h.2]
      · simp [collapseAux, hw, hasGt, h.1, ih false h.2]

theorem collapseAux_startsTag (l : List Char) (h : startsTag l = false) :
    startsTag (collapseAux l false) = false := by
  cases l with
  | nil => rfl
  | cons c t =>
      simp [startsTag] at h
      by_cases hc : c = '>'
      · subst hc
        simp [collapseAux, startsTag, isWsChar]
      · have ht := h hc
        by_cases hw : isWsChar c
        · simp [collapseAux, hw, startsTag, collapseAux_noGt t true ht]
        · simp [collapseAux, hw, startsTag, collapseAux_noGt t false ht]

theorem collapseAux_noTag (l : List Char) (b : Bool) (h : hasTag l = false) :
    hasTag (collapseAux l b) = false := by
  induction l generalizing b with
  | nil => rfl
  | cons c rest ih =>
      simp [hasTag] at h
      obtain ⟨hif, hrest⟩ := h
      by_cases hw : isWsChar c
      · have hc : ¬c = '<' := by
          intro e; subst e; exact absurd hw (by decide)
        cases b with
        | true => simp [collapseAux, hw, ih true hrest]
        | false => simp [collapseAux, hw, hasTag, ih true hrest]
      · by_cases hc : c = '<'
        · subst hc
          have hst : startsTag rest = false := by simpa using hif
          simp [collapseAux, hw, hasTag, ih false hrest,
                collapseAux_startsTag rest hst]
        · simp [collapseAux, hw, hasTag, hc, ih false hrest]

theorem collapseAux_headNoWs (l : List Char) :
    headNoWs (collapseAux l true) = true := by
  induction l with
  | nil => rfl
  | cons c rest ih =>
      by_cases hw : isWsChar c
      · simp [collapseAux, hw, ih]
      · simp [collapseAux, hw, headNoWs]

theorem collapseAux_noWsRun (l : List Char) (b : Bool) :
    noWsRun (collapseAux l b) = true := by
  induction l generalizing b with
  | nil => rfl
  | cons c rest ih =>
      by_cases hw : isWsChar c
      · cases b with
        | true => simp [collapseAux, hw, ih true]
        | false =>
            simp [collapseAux, hw, noWsRun, collapseAux_headNoWs rest, ih true]
      · simp [collapseAux, hw, noWsRun, ih false]

theorem dropWhile_noTag (p : Char → Bool) (l : List Char)
    (h : hasTag l = false) : hasTag (l.dropWhile p) = false := by
  induction l with
  | nil => exact h
  | cons c rest ih =>
      simp [hasTag] at h
      rw [List.dropWhile_cons]
      by_cases hp : p c
      · simp [hp, ih h.2]
      · simp [hp, hasTag, h.2]
        intro hc
        subst hc
        simpa using h.1

theorem dropWhile_noWsRun (p : Char → Bool) (l : List Char)
    (h : noWsRun l = true) : noWsRun (l.dropWhile p) = true := by
  induction l with
  | nil => exact h
  | cons c rest ih =>
      simp [noWsRun] at h
      rw [List.dropWhile_cons]
      by_cases hp : p c
      · simp [hp, ih h.2]
      · simp [hp, noWsRun, h.2]
        exact h.1

theorem ltrimWs_headNoWs (l : List Char) : headNoWs (ltrimWs l) = true := by
  induction l with
  | nil => rfl
  | cons c rest ih =>
      rw [ltrimWs, List.dropWhile_cons]
      by_cases hw : isWsChar c
      · simpa [hw, ltrimWs] using ih
      · simp [hw, headNoWs]

theorem rtrimWs_noGt (l : List Char) (h : hasGt l = false) :
    hasGt (rtrimWs l) = false := by
  induction l with
  | nil => rfl
  | cons c rest ih =>
      simp [hasGt] at h
      by_cases hcond : ((rtrimWs rest).isEmpty && isWsChar c) = true
      · simp [rtrimWs, hcond]
        rfl
      · simp [rtrimWs, hcond, hasGt, h.1, ih h.2]

theorem rtrimWs_startsTag (l : List Char) (h : startsTag l = false) :
    startsTag (rtrimWs l) = false := by
  cases l with
  | nil => rfl
  | cons c t =>
      simp [startsTag] at h
      by_cases hcond : ((rtrimWs t).isEmpty && isWsChar c) = true
      · simp [rtrimWs, hcond]
        rfl
      · by_cases hc : c = '>'
        · subst hc
          simp [rtrimWs, hcond, startsTag]
        · simp [rtrimWs, hcond, startsTag, rtrimWs_noGt t (h hc)]

theorem rtrimWs_noTag (l : List Char) (h : hasTag l = false) :
    hasTag (rtrimWs l) = false := by
  induction l with
  | nil => rfl
  | cons c rest ih =>
      simp [hasTag] at h
      obtain ⟨hif, hrest⟩ := h
      by_cases hcond : ((rtrimWs rest).isEmpty && isWsChar c) = true
      · simp [rtrimWs, hcond]
        rfl
      · by_cases hc : c = '<'
        · subst hc
          have hst : startsTag rest = false := by simpa using hif
          simp [rtrimWs, hcond, hasTag, ih hrest, rtrimWs_startsTag rest hst]
        · simp [rtrimWs, hcond, hasTag, hc, ih hrest]

theorem rtrimWs_headNoWs (l : List Char) (h : headNoWs l = true) :
    headNoWs (rtrimWs l) = true := by
  cases l with
  | nil => rfl
  | cons c t =>
      by_cases hcond : ((rtrimWs t).isEmpty && isWsChar c) = true
      · simp [rtrimWs, hcond]
        rfl
      · simpa [rtrimWs, hcond, headNoWs] using h

theorem rtrimWs_noWsRun (l : List Char) (h : noWsRun l = true) :
    noWsRun (rtrimWs l) = true := by
  induction l with
  | nil => rfl
  | cons c rest ih =>
      simp [noWsRun] at h
      obtain ⟨hif, hrest⟩ := h
      by_cases hcond : ((rtrimWs rest).isEmpty && isWsChar c) = true
      · simp [rtrimWs, hcond]
        rfl
      · rcases hif with hnw | ⟨hsp, hhd⟩
        · simp [rtrimWs, hcond, noWsRun, hnw, ih hrest]
        · subst hsp
          have hne : ¬rtrimWs rest = [] := by
            intro he
            exact hcond (by simp [he, isWsChar])
          simp [rtrimWs, hne, noWsRun, isWsChar, ih hrest,
                rtrimWs_headNoWs rest hhd]

theorem rtrimWs_lastNoWs (l : List Char) : lastNoWs (rtrimWs l) = true := by
  induction l with
  | nil => rfl
  | cons c rest ih =>
      by_cases hcond : ((rtrimWs rest).isEmpty && isWsChar c) = true
      · simp [rtrimWs, hcond]
        rfl
      · simp only [rtrimWs, if_neg hcond]
        cases hr : rtrimWs rest with
        | nil =>
            have hic : isWsChar c = false := by
              cases hic : isWsChar c
              · rfl
              · exact absurd (by simp [hr, hic]) hcond
            simp [lastNoWs, hic]
        | cons d t =>
            have h2 : lastNoWs (d :: t) = true := hr ▸ ih
            simpa [lastNoWs] using h2

theorem take_noGt (l : List Char) (n : Nat) (h : hasGt l = false) :
    hasGt (l.take n) = false := by
  induction l generalizing n with
  | nil => simp [hasGt]
  | cons c rest ih =>
      simp [hasGt] at h
      cases n with
      | zero => rfl
      | succ m => simp [List.take_succ_cons, hasGt, h.1, ih m h.2]

theorem take_startsTag (l : List Char) (n : Nat) (h : startsTag l = false) :
    startsTag (l.take n) = false := by
  cases l with
  | nil => simp [startsTag]
  | cons c t =>
      simp [startsTag] at h
      cases n with
      | zero => rfl
      | succ m =>
          by_cases hc : c = '>'
          · subst hc
            simp [List.take_succ_cons, startsTag]
          · simp [List.take_succ_cons, startsTag, take_noGt t m (h hc)]

/-! ## C9 — removal of a complete script element -/

theorem ciEq_refl (c : Char) : ciEq c c = true := by
  simp [ciEq]

theorem startsWithCI_self_append (pat l : List Char) :
    startsWithCI pat (pat ++ l) = true := by
  induction pat with
  | nil => rfl
  | cons p ps ih => simp [startsWithCI, ciEq_refl, ih]

theorem findCloseCI_here (p : Char) (ps l : List Char) :
    findCloseCI (p :: ps) ((p :: ps) ++ l) = some l := by
  have hs : startsWithCI (p :: ps) ((p :: ps) ++ l) = true :=
    startsWithCI_self_append (p :: ps) l
  rw [List.cons_append, findCloseCI, if_pos (by simpa using hs)]
  simp

theorem findCloseCI_skip (p c : Char) (ps l : List Char)
    (h : ciEq p c = false) :
    findCloseCI (p :: ps) (c :: l) = findCloseCI (p :: ps) l := by
  rw [findCloseCI, if_neg]
  simp [startsWithCI, h]

theorem ciEq_lt_of_ne (b : Char) (h : b ≠ '<') : ciEq '<' b = false := by
  simp [ciEq]
  exact fun e => h e

theorem findCloseCI_clean (ps : List Char) :
    ∀ body rest : List Char, (∀ b ∈ body, b ≠ '<') →
      findCloseCI ('<' :: ps) (body ++ (('<' :: ps) ++ rest)) = some rest := by
  intro body
  induction body with
  | nil =>
      intro rest _
      simpa using findCloseCI_here '<' ps rest
  | cons b bt ih =>
      intro rest h
      have hb : b ≠ '<' := h b (List.mem_cons_self b bt)
      rw [List.cons_append, findCloseCI_skip '<' b ps _ (ciEq_lt_of_ne b hb)]
      exact ih rest (fun x hx => h x (List.mem_cons_of_mem b hx))

theorem findCloseCI_length_le (pat : List Char) :
    ∀ l r : List Char, findCloseCI pat l = some r → r.length ≤ l.length := by
  intro l
  induction l with
  | nil => intro r h; simp [findCloseCI] at h
  | cons c rest ih =>
      intro r h
      rw [findCloseCI] at h
      by_cases hs : startsWithCI pat (c :: rest) = true
      · rw [if_pos hs] at h
        have : r = (c :: rest).drop pat.length := by
          simpa using h.symm
        subst this
        simp [List.length_drop]
      · rw [if_neg hs] at h
        exact le_trans (ih r h) (by simp)

/-- The fuel argument of `removeElemsFuel` is irrelevant as long as it is
at least the list length: with a non-empty open pattern every step
strictly shrinks the list, so the fuel never runs out. -/
theorem removeElemsFuel_fuel_irrel (o : Char) (os closePat : List Char) :
    ∀ f1 f2 l, l.length ≤ f1 → l.length ≤ f2 →
      removeElemsFuel (o :: os) closePat f1 l
        = removeElemsFuel (o :: os) closePat f2 l := by
  intro f1
  induction f1 with
  | zero =>
      intro f2 l h1 _
      have hl : l = [] := by
        cases l with
        | nil => rfl
        | cons c t => simp at h1
      subst hl
      cases f2 <;> rfl
  | succ n ih =>
      intro f2 l h1 h2
      cases l with
      | nil => cases f2 <;> rfl
      | cons c rest =>
          cases f2 with
          | zero => simp at h2
          | succ m =>
              have hrn : rest.length ≤ n := by simpa using h1
              have hrm : rest.length ≤ m := by simpa using h2
              rw [removeElemsFuel, removeElemsFuel]
              by_cases hs : (startsWithCI (o :: os) (c :: rest) &&
                  boundaryOk ((c :: rest).drop (o :: os).length)) = true
              · rw [if_pos hs, if_pos hs]
                cases hf : findCloseCI closePat ((c :: rest).drop (o :: os).length) with
                | some after =>
                    have hlen : after.length ≤ rest.length := by
                      have h3 := findCloseCI_length_le closePat _ after hf
                      simp [List.length_drop] at h3
                      omega
                    exact ih m after (le_trans hlen hrn) (le_trans hlen hrm)
                | none =>
                    rw [ih m rest hrn hrm]
              · rw [if_neg hs, if_neg hs, ih m rest hrn hrm]

/-- One matched step of the scanner: when a match starts at the head and a
close tag is found, the whole match is dropped and scanning resumes after
it. -/
theorem removeElemsFuel_step (oP cP : List Char) (f : Nat) (c : Char)
    (t after : List Char)
    (hs : (startsWithCI oP (c :: t) && boundaryOk ((c :: t).drop oP.length)) = true)
    (hf : findCloseCI cP ((c :: t).drop oP.length) = some after) :
    removeElemsFuel oP cP (f + 1) (c :: t) = removeElemsFuel oP cP f after := by
  rw [removeElemsFuel, if_pos hs, hf]

/-- A complete script element — open tag `<script>`, a `<`-free body, and
the first following `</script>` — standing at the head of the input is
removed entirely by `removeScript`, which continues on the remainder. -/
theorem removeScript_head (body rest : List Char)
    (hb : ∀ b ∈ body, b ≠ '<') :
    removeScript ('<' :: 's' :: 'c' :: 'r' :: 'i' :: 'p' :: 't' :: '>' ::
        (body ++ ('<' :: '/' :: 's' :: 'c' :: 'r' :: 'i' :: 'p' :: 't' :: '>' :: rest)))
      = removeScript rest := by
  have hO : scriptOpen = ['<', 's', 'c', 'r', 'i', 'p', 't'] := rfl
  have hC : scriptClose = '<' :: ['/', 's', 'c', 'r', 'i', 'p', 't', '>'] := rfl
  have hbody : ∀ b ∈ '>' :: body, b ≠ '<' := by
    intro b hbm
    rcases List.mem_cons.mp hbm with h1 | h2
    · subst h1; decide
    · exact hb b h2
  have hwb : isWordChar '>' = false := by decide
  have hs : (startsWithCI scriptOpen
        ('<' :: 's' :: 'c' :: 'r' :: 'i' :: 'p' :: 't' :: '>' ::
          (body ++ ('<' :: '/' :: 's' :: 'c' :: 'r' :: 'i' :: 'p' :: 't' :: '>' :: rest))) &&
      boundaryOk (('<' :: 's' :: 'c' :: 'r' :: 'i' :: 'p' :: 't' :: '>' ::
          (body ++ ('<' :: '/' :: 's' :: 'c' :: 'r' :: 'i' :: 'p' :: 't' :: '>' :: rest))).drop
        scriptOpen.length)) = true := by
    rw [hO]
    simp [startsWithCI, ciEq, boundaryOk, hwb]
  have hf : findCloseCI scriptClose
      (('<' :: 's' :: 'c' :: 'r' :: 'i' :: 'p' :: 't' :: '>' ::
          (body ++ ('<' :: '/' :: 's' :: 'c' :: 'r' :: 'i' :: 'p' :: 't' :: '>' :: rest))).drop
        scriptOpen.length) = some rest := by
    rw [hO, hC]
    have h1 := findCloseCI_clean ['/', 's', 'c', 'r', 'i', 'p', 't', '>']
      ('>' :: body) rest hbody
    simpa using h1
  unfold removeScript
  rw [show ('<' :: 's' :: 'c' :: 'r' :: 'i' :: 'p' :: 't' :: '>' ::
        (body ++ ('<' :: '/' :: 's' :: 'c' :: 'r' :: 'i' :: 'p' :: 't' :: '>' :: rest))).length
      = ('s' :: 'c' :: 'r' :: 'i' :: 'p' :: 't' :: '>' ::
        (body ++ ('<' :: '/' :: 's' :: 'c' :: 'r' :: 'i' :: 'p' :: 't' :: '>' :: rest))).length + 1
      from by simp]
  rw [removeElemsFuel_step scriptOpen scriptClose _ '<' _ rest hs hf]
  rw [hO]
  apply removeElemsFuel_fuel_irrel
  · simp [List.length_append]
    omega
  · exact le_refl _

theorem take_noTag (l : List Char) (n : Nat) (h : hasTag l = false) :
    hasTag (l.take n) = false := by
  induction l generalizing n with
  | nil => simp [hasTag]
  | cons c rest ih =>
      simp [hasTag] at h
      obtain ⟨hif, hrest⟩ := h
      cases n with
      | zero => rfl
      | succ m =>
          by_cases hc : c = '<'
          · subst hc
            have hst : startsTag rest = false := by simpa using hif
            simp [List.take_succ_cons, hasTag, ih m hrest,
                  take_startsTag rest m hst]
          · simp [List.take_succ_cons, hasTag, hc, ih m hrest]

/-! ## C9 — the claim -/

/-- C9 counterexample: the fetched body `<p>Hi</p><script>alert(1)` holds
an *unclosed* script element; the removal regex only matches up to a
closing `</script>`, so nothing is removed, the later tag-stripping pass
erases the `<script>` tag itself, and the script content `alert(1)`
survives into the extracted text — contradicting "script and style
element contents removed entirely" for every fetched body. -/
theorem C9_counterexample :
    fetchWebPageContent "<p>Hi</p><script>alert(1)".data = "Hi alert(1)".data ∧
    "alert(1)".data <:+: fetchWebPageContent "<p>Hi</p><script>alert(1)".data := by
  exact ⟨by decide, by decide⟩

/-- C9 (amended): for every fetched body, the extracted page text is at
most 10,000 characters (the text before truncation, `fetchPreTruncate`,
is cut by `take 10000`), contains no occurrence of `<[^>]+>` — no HTML
tag — either before or after truncation, and before truncation every
whitespace character is a single plain space not followed by whitespace,
with no leading or trailing whitespace.  A *complete* script element
(open tag, `<`-free body, first close tag) is removed entirely in the
single left-to-right pass; an unclosed one only has its tags stripped
(see the counterexample).  The spec's concrete scenario holds:
`"<html><body><p>Hello</p></body></html>"` extracts to `"Hello"`, and a
closed script element's content is gone. -/
theorem C9_amended (html : List Char) :
    (fetchWebPageContent html).length ≤ 10000 ∧
    fetchWebPageContent html = (fetchPreTruncate html).take 10000 ∧
    hasTag (fetchPreTruncate html) = false ∧
    hasTag (fetchWebPageContent html) = false ∧
    noWsRun (fetchPreTruncate html) = true ∧
    headNoWs (fetchPreTruncate html) = true ∧
    lastNoWs (fetchPreTruncate html) = true ∧
    (∀ body rest : List Char, (∀ b ∈ body, b ≠ '<') →
      removeScript ("<script>".data ++ (body ++ ("</script>".data ++ rest)))
        = removeScript rest) ∧
    fetchWebPageContent "<html><body><p>Hello</p></body></html>".data
      = "Hello".data ∧
    fetchWebPageContent "<p>A</p><script>var x=1;</script><p>B</p>".data
      = "A B".data := by
  have h1 : hasTag (replaceTags (removeStyle (removeScript html))) = false :=
    tagsAux_noTag _ none (by intro buf hb; cases hb)
  have h2 : hasTag (collapseWs (replaceTags (removeStyle (removeScript html))))
      = false := collapseAux_noTag _ false h1
  have h3 : hasTag (ltrimWs (collapseWs (replaceTags
      (removeStyle (removeScript html))))) = false :=
    dropWhile_noTag _ _ h2
  have h4 : hasTag (fetchPreTruncate html) = false := rtrimWs_noTag _ h3
  have h5 : noWsRun (collapseWs (replaceTags (removeStyle (removeScript html))))
      = true := collapseAux_noWsRun _ false
  have h6 : noWsRun (ltrimWs (collapseWs (replaceTags
      (removeStyle (removeScript html))))) = true :=
    dropWhile_noWsRun _ _ h5
  have h7 : noWsRun (fetchPreTruncate html) = true := rtrimWs_noWsRun _ h6
  have h8 : headNoWs (ltrimWs (collapseWs (replaceTags
      (removeStyle (removeScript html))))) = true := ltrimWs_headNoWs _
  have h9 : headNoWs (fetchPreTruncate html) = true := rtrimWs_headNoWs _ h8
  have h10 : lastNoWs (fetchPreTruncate html) = true := rtrimWs_lastNoWs _
  refine ⟨?_, rfl, h4, take_noTag _ _ h4, h7, h9, h10, ?_, by decide, by decide⟩
  · show ((fetchPreTruncate html).take 10000).length ≤ 10000
    rw [List.length_take]
    exact Nat.min_le_left _ _
  · intro body rest hbm
    exact removeScript_head body rest hbm

/-- Witness for `C9_amended`: a concrete complete script element is
removed entirely. -/
theorem C9_amended_witness :
    removeScript ("<script>".data ++
        ("var x=1;".data ++ ("</script>".data ++ "<p>ok</p>".data)))
      = removeScript "<p>ok</p>".data :=
  (C9_amended []).2.2.2.2.2.2.2.1 "var x=1;".data "<p>ok</p>".data (by decide)

end AiSummary
